import Mathlib

/-!
Verification of the `nerve serve` gateway (`src/nerve/cli/serve.py`).

Shallow embedding of the serving gateway of the `nerve` CLI: mode
resolution, input resolution, route-table construction, and the agent /
tool HTTP endpoint handlers, together with proofs of the specification's
claims about them.

Python dictionaries are modelled as association lists `List (String × _)`
(keys unique, insertion order preserved); a value that may be Python
`None` is an `Option`; a handler that may `raise` returns `Except`.
Values carried in request bodies and runner states are kept abstract as a
type parameter `V` (the gateway never inspects them).
-/

deriving instance DecidableEq for Except

namespace Nerve

/-- Python `HTTPException(status_code=..., detail=...)` as raised by
`_get_input_state_from_request`. -/
structure HTTPException where
  status_code : Nat
  detail : String
deriving Repr, DecidableEq

/-- Python `d.get(k, fallback)` on a dict whose stored values may be `None`:
if the key is present the stored value is returned even when it is `None`
(`Option.none`); only an absent key falls back. -/
def dictGet {V : Type} (d : List (String × Option V)) (k : String)
    (fallback : Option V) : Option V :=
  match d.lookup k with
  | some v => v
  | none => fallback

/-- Embedding of `_get_input_state_from_request(inputs, data)`
(src/nerve/cli/serve.py lines 35-45).

The Python code copies `inputs`, iterates over its keys in order, takes
`data.get(name, inputs.get(name, None))` for each, raises
`HTTPException(400, f"input '{name}' is required")` at the first `None`,
and otherwise overwrites the entry with the (non-`None`) resolved value.
Here `inputs` maps each declared name to its optional default and the
result maps each declared name to `some value`. -/
def getInputStateFromRequest {V : Type} (inputs data : List (String × Option V)) :
    Except HTTPException (List (String × Option V)) :=
  match inputs with
  | [] => .ok []
  | (name, dflt) :: rest =>
    match dictGet data name dflt with
    | some v =>
      match getInputStateFromRequest rest data with
      | .ok st => .ok ((name, some v) :: st)
      | .error e => .error e
    | none => .error ⟨400, "input '" ++ name ++ "' is required"⟩

/-- The first declared input (in declaration order) whose resolution
`data.get(name, default)` comes out `None`: the one whose name the raised
`HTTPException` carries. -/
def firstNullInput {V : Type} (inputs data : List (String × Option V)) :
    Option String :=
  (inputs.find? (fun p => (dictGet data p.1 p.2).isNone)).map Prod.fst

/-- The loaded agent configuration, restricted to the attributes
`_serve` and `_get_rest_api_app` read: `description`, and the three
optional directives `system_prompt`, `agent`, `task` whose presence
drives mode inference. -/
structure Configuration where
  description : String
  system_prompt : Option String
  agent : Option String
  task : Option String
deriving Repr, DecidableEq

/-- Python truthiness of an optional string: `not x` is true when `x` is
`None` or the empty string. -/
def isFalsy : Option String → Bool
  | none => true
  | some s => s == ""

/-- Embedding of the mode-resolution block of `_serve`
(src/nerve/cli/serve.py lines 311-318):

`if tools_only or not config.system_prompt and not config.agent and not config.task:`
then both `serve_tools` and `tools_only` are set to `True`; the `elif` /
`else` branches only log. Returns the resolved
`(serve_tools, tools_only)` pair. -/
def resolveMode (tools_only serve_tools : Bool) (config : Configuration) :
    Bool × Bool :=
  if tools_only ||
      (isFalsy config.system_prompt && isFalsy config.agent && isFalsy config.task) then
    (true, true)
  else
    (serve_tools, tools_only)

/-- A registered tool as the route table sees it: its `__name__` and its
`__doc__` (which may be `None`). The callable itself stays abstract. -/
structure Tool where
  name : String
  doc : Option String
deriving Repr, DecidableEq

/-- The external tool runtime (`Runtime.build` result): exposes the list
of registered tools. -/
structure Runtime where
  tools : List Tool
deriving Repr, DecidableEq

/-- Which handler a FastAPI route dispatches to: the closure built by
`_create_agent_call_endpoint` or the one built by
`_create_tool_call_endpoint` for a given tool. -/
inductive Endpoint where
  | agentCall : Endpoint
  | toolCall : Tool → Endpoint
deriving Repr, DecidableEq

/-- One entry added by `app.add_api_route(...)`: its path, handler,
HTTP methods and summary string. -/
structure Route where
  path : String
  endpoint : Endpoint
  methods : List String
  summary : Option String
deriving Repr, DecidableEq

/-- Embedding of `_get_rest_api_app` (src/nerve/cli/serve.py lines
126-169) as the list of routes added to the `FastAPI` app, in order:

* `if not tools_only:` one agent route at `"/"`, methods `["POST"]`,
  `summary=config.description`;
* `if serve_tools and runtime:` one route per `tool in runtime.tools`
  at `"/" + tool.__name__` with `summary=tool.__doc__`.

The parameters that only parameterize the agent handler's closure
(`input_path`, `generator`, ..., `inputs`) do not affect the table's
shape and are elided here; the handler itself is modelled separately by
`agentOnRequest` and `toolOnRequest`. -/
def getRestApiApp (config : Configuration) (runtime : Option Runtime)
    (serve_tools tools_only : Bool) : List Route :=
  (if !tools_only then
    [{ path := "/", endpoint := .agentCall, methods := ["POST"],
       summary := some config.description }]
  else []) ++
  (if serve_tools then
    match runtime with
    | some rt =>
      rt.tools.map (fun tool =>
        { path := "/" ++ tool.name, endpoint := .toolCall tool,
          methods := ["POST"], summary := tool.doc })
    | none => []
  else [])

/-- The startup state `_serve` reaches on its REST path: the resolved
flags, the runtime (constructed or still `None`), and the built route
table. -/
structure ServeResult where
  serve_tools : Bool
  tools_only : Bool
  runtime : Option Runtime
  app : List Route
deriving Repr, DecidableEq

/-- Embedding of the REST path of `_serve` (src/nerve/cli/serve.py lines
291-376): mode resolution first, then — only `if serve_tools:` — the
construction of the tool runtime (`Runtime.build`, whose result is the
abstract parameter `built`), and only then `_get_rest_api_app` on the
resolved flags and the runtime. -/
def serveRest (config : Configuration) (built : Runtime)
    (serve_tools tools_only : Bool) : ServeResult :=
  let m := resolveMode tools_only serve_tools config
  let runtime : Option Runtime := if m.1 then some built else none
  { serve_tools := m.1, tools_only := m.2, runtime := runtime,
    app := getRestApiApp config runtime m.1 m.2 }

/-- Python `s.lower()` restricted to the ASCII case mapping, applied
character by character. -/
def pyLower (s : String) : String := ⟨s.data.map Char.toLower⟩

/-- Embedding of line 62 of src/nerve/cli/serve.py:
`request.query_params.get("full", "false").lower() == "true"`.
`fullParam` is the value of the query parameter `full`, `none` when
absent. -/
def isRawRequest (fullParam : Option String) : Bool :=
  pyLower (fullParam.getD "false") == "true"

/-- What can abort an HTTP handler: a raised `HTTPException`, or an
uncaught Python `KeyError` from indexing a dict at an absent key. -/
inductive ServeError where
  | http : HTTPException → ServeError
  | keyError : String → ServeError
deriving Repr, DecidableEq

/-- The shape of a successful agent-endpoint response: either the whole
output-state map returned by the runner, or the single value found under
its `output` key. -/
inductive AgentResponse (V : Type) where
  | full : List (String × V) → AgentResponse V
  | single : V → AgentResponse V
deriving Repr, DecidableEq

/-- Embedding of the `_on_request` closure built by
`_create_agent_call_endpoint` (src/nerve/cli/serve.py lines 60-81):
resolve the input state (a raised `HTTPException` propagates), run the
runner on it (the runner is external and abstracted as `run`), then
either return the whole output state when `raw` is set or index it at
`"output"` (a `KeyError` propagates when the key is absent). -/
def agentOnRequest {V : Type} (run : List (String × Option V) → List (String × V))
    (inputs data : List (String × Option V)) (fullParam : Option String) :
    Except ServeError (AgentResponse V) :=
  match getInputStateFromRequest inputs data with
  | .error e => .error (.http e)
  | .ok input_state =>
    let output_state := run input_state
    if isRawRequest fullParam then
      .ok (.full output_state)
    else
      match output_state.lookup "output" with
      | some v => .ok (.single v)
      | none => .error (.keyError "output")

/-- Embedding of the `_on_request` closure built by
`_create_tool_call_endpoint` (src/nerve/cli/serve.py lines 86-99): the
tool (abstracted as a function from its named arguments to its returned
value) is called with `**(data if data else {})` — the request body when
it is a truthy (non-empty) dict, no arguments otherwise — and the
returned value is wrapped as `{"result": value}`. -/
def toolOnRequest {V : Type} (tool : List (String × V) → V)
    (data : Option (List (String × V))) : List (String × V) :=
  let args := match data with
    | some d => if d.isEmpty then [] else d
    | none => []
  [("result", tool args)]

/-! Helper lemmas about input resolution. -/

/-- A successful resolution keeps exactly the declared keys, in order,
and every stored value is `some`. -/
theorem getInputState_ok_keys {V : Type} (inputs data st : List (String × Option V))
    (hok : getInputStateFromRequest inputs data = .ok st) :
    st.map Prod.fst = inputs.map Prod.fst ∧ ∀ p ∈ st, p.2 ≠ none := by
  induction inputs generalizing st with
  | nil =>
    simp only [getInputStateFromRequest, Except.ok.injEq] at hok
    subst hok
    simp
  | cons hd tl ih =>
    obtain ⟨name, dflt⟩ := hd
    simp only [getInputStateFromRequest] at hok
    cases hget : dictGet data name dflt with
    | none => rw [hget] at hok; cases hok
    | some v =>
      rw [hget] at hok
      cases hrec : getInputStateFromRequest tl data with
      | error e => rw [hrec] at hok; cases hok
      | ok st' =>
        rw [hrec] at hok
        simp only [Except.ok.injEq] at hok
        subst hok
        obtain ⟨h1, h2⟩ := ih st' hrec
        refine ⟨by simp [h1], ?_⟩
        intro p hp
        rcases List.mem_cons.mp hp with hp | hp
        · subst hp; simp
        · exact h2 p hp

/-- Characterization of a successful resolution at one declared input:
the value stored under a declared name is the (non-null) result of
`data.get(name, default)`. -/
theorem getInputState_ok_lookup {V : Type} (inputs data st : List (String × Option V))
    (hok : getInputStateFromRequest inputs data = .ok st)
    (hnd : (inputs.map Prod.fst).Nodup)
    (name : String) (d : Option V) (hmem : (name, d) ∈ inputs) :
    ∃ v, dictGet data name d = some v ∧ st.lookup name = some (some v) := by
  induction inputs generalizing st with
  | nil => cases hmem
  | cons hd tl ih =>
    obtain ⟨n0, d0⟩ := hd
    simp only [getInputStateFromRequest] at hok
    cases hget : dictGet data n0 d0 with
    | none => rw [hget] at hok; cases hok
    | some v0 =>
      rw [hget] at hok
      cases hrec : getInputStateFromRequest tl data with
      | error e => rw [hrec] at hok; cases hok
      | ok st' =>
        rw [hrec] at hok
        simp only [Except.ok.injEq] at hok
        subst hok
        simp only [List.map_cons, List.nodup_cons] at hnd
        rcases List.mem_cons.mp hmem with heq | hmem'
        · obtain ⟨he1, he2⟩ := Prod.mk.injEq .. ▸ heq
          subst he1; subst he2
          exact ⟨v0, hget, by simp [List.lookup]⟩
        · have hne : (name == n0) = false := by
            refine beq_eq_false_iff_ne.mpr ?_
            intro h
            subst h
            exact hnd.1 (List.mem_map_of_mem Prod.fst hmem')
          obtain ⟨v, hv1, hv2⟩ := ih st' hrec hnd.2 hmem'
          exact ⟨v, hv1, by simp [List.lookup, hne, hv2]⟩

/-- When some declared input resolves to null there is a first such
input, and resolution raises the 400 error naming it. -/
theorem getInputState_error_first {V : Type} (inputs data : List (String × Option V))
    (m : String) (hfirst : firstNullInput inputs data = some m) :
    getInputStateFromRequest inputs data =
      .error ⟨400, "input '" ++ m ++ "' is required"⟩ := by
  induction inputs with
  | nil => simp [firstNullInput] at hfirst
  | cons hd tl ih =>
    obtain ⟨n0, d0⟩ := hd
    cases hget : dictGet data n0 d0 with
    | none =>
      have : firstNullInput ((n0, d0) :: tl) data = some n0 := by
        simp [firstNullInput, List.find?_cons, hget]
      rw [this] at hfirst
      simp only [Option.some.injEq] at hfirst
      subst hfirst
      simp [getInputStateFromRequest, hget]
    | some v0 =>
      have hstep : firstNullInput ((n0, d0) :: tl) data = firstNullInput tl data := by
        simp [firstNullInput, List.find?_cons, hget]
      rw [hstep] at hfirst
      have := ih hfirst
      simp [getInputStateFromRequest, hget, this]

/-- If any declared input resolves to null, a first such input exists. -/
theorem firstNullInput_isSome_of_mem {V : Type} (inputs data : List (String × Option V))
    (name : String) (d : Option V) (hmem : (name, d) ∈ inputs)
    (hnull : dictGet data name d = none) :
    ∃ m, firstNullInput inputs data = some m := by
  have hs : (inputs.find? (fun p => (dictGet data p.1 p.2).isNone)).isSome := by
    rw [List.find?_isSome]
    exact ⟨(name, d), hmem, by simp [hnull]⟩
  obtain ⟨p, hp⟩ := Option.isSome_iff_exists.mp hs
  exact ⟨p.1, by simp [firstNullInput, hp]⟩

/-! Claim theorems. -/

/-- C1: Mode resolution — if the `tools_only` flag is set, or the
configuration has none of `systemPrompt` (`config.system_prompt`),
`agentDirective` (`config.agent`) and `taskDirective` (`config.task`)
set, the resolved mode is tools-only: `serve_tools` is forced to `true`
regardless of its original value, and the agent-invocation endpoint is
absent from the built route table. -/
theorem tools_only_mode_resolution (config : Configuration) (built : Runtime)
    (serve_tools tools_only : Bool)
    (h : tools_only = true ∨
      (config.system_prompt = none ∧ config.agent = none ∧ config.task = none)) :
    (serveRest config built serve_tools tools_only).serve_tools = true ∧
    ∀ r ∈ (serveRest config built serve_tools tools_only).app,
      r.endpoint ≠ Endpoint.agentCall := by
  have hcond : (tools_only ||
      (isFalsy config.system_prompt && isFalsy config.agent && isFalsy config.task)) = true := by
    rcases h with h | ⟨h1, h2, h3⟩
    · simp [h]
    · simp [h1, h2, h3, isFalsy]
  constructor
  · simp [serveRest, resolveMode, hcond]
  · intro r hr
    simp only [serveRest, resolveMode, hcond, if_true, getRestApiApp, Bool.not_true,
      Bool.false_eq_true, if_false, List.nil_append, if_pos] at hr
    obtain ⟨tool, _, htool⟩ := List.mem_map.mp hr
    rw [← htool]
    simp

/-- Witness for C1 at a concrete input: `tools_only=true` with a
configuration that has a system prompt. -/
theorem tools_only_mode_resolution_witness :
    (serveRest ⟨"d", some "sp", none, none⟩ ⟨[⟨"t", some "doc"⟩]⟩ false true).serve_tools = true ∧
    ∀ r ∈ (serveRest ⟨"d", some "sp", none, none⟩ ⟨[⟨"t", some "doc"⟩]⟩ false true).app,
      r.endpoint ≠ Endpoint.agentCall :=
  tools_only_mode_resolution ⟨"d", some "sp", none, none⟩ ⟨[⟨"t", some "doc"⟩]⟩ false true
    (Or.inl rfl)

/-- C2: Input resolution with defaults — a declared input with a
non-null default resolves to that default when the request supplies no
entry for it, and to the supplied value when one is present. -/
theorem input_default_resolution {V : Type} (inputs data st : List (String × Option V))
    (name : String) (d : V)
    (hnd : (inputs.map Prod.fst).Nodup)
    (hmem : (name, some d) ∈ inputs)
    (hok : getInputStateFromRequest inputs data = .ok st) :
    (data.lookup name = none → st.lookup name = some (some d)) ∧
    (∀ v : V, data.lookup name = some (some v) → st.lookup name = some (some v)) := by
  obtain ⟨v, hv1, hv2⟩ := getInputState_ok_lookup inputs data st hok hnd name (some d) hmem
  constructor
  · intro habs
    have hd : dictGet data name (some d) = some d := by simp [dictGet, habs]
    rw [hd] at hv1
    simp only [Option.some.injEq] at hv1
    subst hv1
    exact hv2
  · intro w hw
    have hd : dictGet data name (some d) = some w := by simp [dictGet, hw]
    rw [hd] at hv1
    simp only [Option.some.injEq] at hv1
    subst hv1
    exact hv2

/-- Witness for C2 at a concrete input: declared
`{"name": "world", "x": "1"}` with request `{"x": "2"}` resolves `name`
to its default `"world"`. -/
theorem input_default_resolution_witness :
    List.lookup "name" [("name", some "world"), ("x", (some "2" : Option String))] =
      some (some "world") :=
  (input_default_resolution [("name", some "world"), ("x", some "1")] [("x", some "2")]
    [("name", some "world"), ("x", some "2")] "name" "world"
    (by decide) (by decide) (by decide)).1 (by decide)

/-- C3 counterexample: with two required inputs `a` and `b` both omitted
from the request, resolution fails with the error naming `a`, so the
claim instance for `b` — that the message is exactly
"input 'b' is required" — is false. -/
theorem missing_required_input_cex :
    ("b", (none : Option String)) ∈ [("a", (none : Option String)), ("b", none)] ∧
    List.lookup "b" ([] : List (String × Option String)) = none ∧
    getInputStateFromRequest [("a", (none : Option String)), ("b", none)] [] =
      .error ⟨400, "input 'a' is required"⟩ ∧
    getInputStateFromRequest [("a", (none : Option String)), ("b", none)] [] ≠
      .error ⟨400, "input 'b' is required"⟩ := by
  refine ⟨by decide, by decide, by decide, by decide⟩

/-- C3 (amended): for every declared input with no default that the
request omits, resolution fails — no resolved input state is returned —
with a 400 error whose message is exactly "input '<m>' is required",
where `m` is the first declared input (in declaration order) whose
resolution is null (`m` is the omitted input itself whenever it is the
first such). -/
theorem missing_required_input_error {V : Type} (inputs data : List (String × Option V))
    (name : String) (hmem : (name, none) ∈ inputs)
    (habs : data.lookup name = none) :
    ∃ m, firstNullInput inputs data = some m ∧
      getInputStateFromRequest inputs data =
        .error ⟨400, "input '" ++ m ++ "' is required"⟩ := by
  have hnull : dictGet data name none = none := by simp [dictGet, habs]
  obtain ⟨m, hm⟩ := firstNullInput_isSome_of_mem inputs data name none hmem hnull
  exact ⟨m, hm, getInputState_error_first inputs data m hm⟩

/-- Witness for amended C3 at a concrete input: sole required input `a`
omitted from an empty request. -/
theorem missing_required_input_error_witness :
    getInputStateFromRequest [("a", (none : Option String))] [] =
      .error ⟨400, "input 'a' is required"⟩ := by
  obtain ⟨m, hm, he⟩ := missing_required_input_error [("a", (none : Option String))] []
    "a" (by decide) (by decide)
  have h2 : firstNullInput [("a", (none : Option String))] [] = some "a" := by decide
  have hma : m = "a" := by
    have := hm.symm.trans h2
    simpa using this
  subst hma
  exact he

/-- C9 counterexample: declared `a` (required) and `b` (default `"x"`),
request `{"b": null}` — resolution fails naming `a`, not `b`, so the
claim instance for `b` is false as stated. -/
theorem null_supplied_input_cex :
    ("b", (some "x" : Option String)) ∈ [("a", (none : Option String)), ("b", some "x")] ∧
    List.lookup "b" [("b", (none : Option String))] = some none ∧
    getInputStateFromRequest [("a", (none : Option String)), ("b", some "x")] [("b", none)] =
      .error ⟨400, "input 'a' is required"⟩ ∧
    getInputStateFromRequest [("a", (none : Option String)), ("b", some "x")] [("b", none)] ≠
      .error ⟨400, "input 'b' is required"⟩ := by
  refine ⟨by decide, by decide, by decide, by decide⟩

/-- C9 (amended): a supplied input bound to null is treated as missing —
it shadows the default lookup (`data.get` returns the stored `None`), so
even when the input declares a non-null default, resolution fails with a
400 error "input '<m>' is required" naming the first declared input
whose resolution is null (the null-supplied input itself whenever it is
the first such). -/
theorem null_supplied_input_error {V : Type} (inputs data : List (String × Option V))
    (name : String) (d : V) (hmem : (name, some d) ∈ inputs)
    (hnull : data.lookup name = some none) :
    ∃ m, firstNullInput inputs data = some m ∧
      getInputStateFromRequest inputs data =
        .error ⟨400, "input '" ++ m ++ "' is required"⟩ := by
  have hget : dictGet data name (some d) = none := by simp [dictGet, hnull]
  obtain ⟨m, hm⟩ := firstNullInput_isSome_of_mem inputs data name (some d) hmem hget
  exact ⟨m, hm, getInputState_error_first inputs data m hm⟩

/-- Witness for amended C9 at a concrete input: `greeting` has default
`"hello"` but the request supplies `{"greeting": null}`. -/
theorem null_supplied_input_error_witness :
    getInputStateFromRequest [("greeting", (some "hello" : Option String))]
      [("greeting", none)] = .error ⟨400, "input 'greeting' is required"⟩ := by
  obtain ⟨m, hm, he⟩ := null_supplied_input_error [("greeting", (some "hello" : Option String))]
    [("greeting", none)] "greeting" "hello" (by decide) (by decide)
  have h2 : firstNullInput [("greeting", (some "hello" : Option String))] [("greeting", none)] =
      some "greeting" := by decide
  have hma : m = "greeting" := by
    have := hm.symm.trans h2
    simpa using this
  subst hma
  exact he

/-- C4 counterexample: the query parameter value `"TRUE"` is not the
string `"true"`, so the claim ("any other value returns only the value
under `output`") demands the single value — but the handler lowercases
the parameter and returns the entire output-state map. -/
theorem agent_response_shape_cex :
    ("TRUE" : String) ≠ "true" ∧
    agentOnRequest (fun _ => [("output", "v")]) ([] : List (String × Option String)) []
      (some "TRUE") = .ok (.full [("output", "v")]) ∧
    agentOnRequest (fun _ => [("output", "v")]) ([] : List (String × Option String)) []
      (some "TRUE") ≠ .ok (.single "v") := by
  refine ⟨by decide, by decide, by decide⟩

/-- C4 (amended): for every successful agent invocation, if the `full`
query parameter lowercases to `"true"` (case-insensitive match; absent
defaults to `"false"`) the response is the entire output-state map
returned by the runner, and otherwise it is exactly the value stored
under key `output` of that map, never the surrounding map. -/
theorem agent_response_shape {V : Type}
    (run : List (String × Option V) → List (String × V))
    (inputs data st : List (String × Option V)) (fullParam : Option String)
    (hok : getInputStateFromRequest inputs data = .ok st) :
    (pyLower (fullParam.getD "false") = "true" →
      agentOnRequest run inputs data fullParam = .ok (.full (run st))) ∧
    (pyLower (fullParam.getD "false") ≠ "true" →
      ∀ v, (run st).lookup "output" = some v →
        agentOnRequest run inputs data fullParam = .ok (.single v)) := by
  constructor
  · intro htrue
    have hraw : isRawRequest fullParam = true := by
      simp [isRawRequest, htrue]
    simp [agentOnRequest, hok, hraw]
  · intro hother v hv
    have hraw : isRawRequest fullParam = false := by
      simpa [isRawRequest] using hother
    simp [agentOnRequest, hok, hraw, hv]

/-- Witness for amended C4 at a concrete input: no `full` parameter, so
the response is the value under `output`. -/
theorem agent_response_shape_witness :
    agentOnRequest (fun _ => [("output", "done")]) ([] : List (String × Option String)) []
      none = .ok (.single "done") :=
  (agent_response_shape (fun _ => [("output", "done")]) [] [] [] none (by decide)).2
    (by decide) "done" (by decide)

/-- C5: Route table in combined mode — with `serve_tools=true`,
`tools_only=false` and a configuration that has a (non-empty) system
prompt, the built route table is exactly one agent route at `"/"` whose
summary is `config.description`, followed by one route per registered
tool at `"/" + name` whose summary is that tool's documentation string,
and nothing else. -/
theorem combined_mode_route_table (config : Configuration) (built : Runtime)
    (p : String) (hsp : config.system_prompt = some p) (hp : p ≠ "") :
    (serveRest config built true false).app =
      { path := "/", endpoint := .agentCall, methods := ["POST"],
        summary := some config.description } ::
      built.tools.map (fun tool =>
        { path := "/" ++ tool.name, endpoint := .toolCall tool,
          methods := ["POST"], summary := tool.doc }) := by
  have hcond : isFalsy config.system_prompt = false := by
    rw [hsp]
    simpa [isFalsy] using hp
  simp [serveRest, resolveMode, hcond, getRestApiApp]

/-- Witness for C5 at a concrete input: one registered tool. -/
theorem combined_mode_route_table_witness :
    (serveRest ⟨"desc", some "sp", none, none⟩ ⟨[⟨"t", some "tdoc"⟩]⟩ true false).app =
      [{ path := "/", endpoint := .agentCall, methods := ["POST"],
         summary := some "desc" },
       { path := "/t", endpoint := .toolCall ⟨"t", some "tdoc"⟩, methods := ["POST"],
         summary := some "tdoc" }] :=
  combined_mode_route_table ⟨"desc", some "sp", none, none⟩ ⟨[⟨"t", some "tdoc"⟩]⟩
    "sp" rfl (by decide)

/-- C6: Tool invocation semantics — a POST with a non-empty JSON object
body calls the tool with exactly the supplied named arguments, forwarded
verbatim with no validation, and wraps the returned value as
`{"result": value}`; an absent or empty body calls the tool with no
arguments. -/
theorem tool_invocation_semantics {V : Type} (tool : List (String × V) → V)
    (data : List (String × V)) (h : data ≠ []) :
    toolOnRequest tool (some data) = [("result", tool data)] ∧
    toolOnRequest tool none = [("result", tool [])] ∧
    toolOnRequest tool (some []) = [("result", tool [])] := by
  refine ⟨?_, rfl, rfl⟩
  simp [toolOnRequest, h]

/-- Witness for C6 at a concrete input: a tool that counts its arguments,
called with one named argument. -/
theorem tool_invocation_semantics_witness :
    toolOnRequest (fun args : List (String × Nat) => args.length) (some [("x", 5)]) =
      [("result", 1)] :=
  (tool_invocation_semantics (fun args : List (String × Nat) => args.length)
    [("x", 5)] (by decide)).1

/-- C7: ResolvedInputState invariant — whenever resolution succeeds, the
resolved state carries exactly the declared input names as keys, every
value in it is non-null, and keys supplied in the request but not
declared never appear in it. -/
theorem resolved_input_state_invariant {V : Type}
    (inputs data st : List (String × Option V))
    (hok : getInputStateFromRequest inputs data = .ok st) :
    st.map Prod.fst = inputs.map Prod.fst ∧
    (∀ p ∈ st, p.2 ≠ none) ∧
    (∀ k, k ∈ data.map Prod.fst → k ∉ inputs.map Prod.fst → k ∉ st.map Prod.fst) := by
  obtain ⟨h1, h2⟩ := getInputState_ok_keys inputs data st hok
  exact ⟨h1, h2, fun k _ hk => by rw [h1]; exact hk⟩

/-- Witness for C7 at a concrete input: the undeclared key `extra`
supplied in the request does not appear in the resolved state. -/
theorem resolved_input_state_invariant_witness :
    "extra" ∉ ([("a", some "y")] : List (String × Option String)).map Prod.fst := by
  have h := resolved_input_state_invariant [("a", (some "x" : Option String))]
    [("a", some "y"), ("extra", some "z")] [("a", some "y")] (by decide)
  exact h.2.2 "extra" (by decide) (by decide)

/-- C8: Conditional tool-runtime construction — after mode resolution
the runtime is constructed if and only if the resolved mode includes
tool endpoints (`serve_tools` true), the route table is built from that
runtime (so the construction precedes route building), and in agent-only
mode the runtime remains `None`. -/
theorem runtime_construction_iff (config : Configuration) (built : Runtime)
    (serve_tools tools_only : Bool) :
    ((serveRest config built serve_tools tools_only).runtime ≠ none ↔
      (serveRest config built serve_tools tools_only).serve_tools = true) ∧
    (serveRest config built serve_tools tools_only).app =
      getRestApiApp config (serveRest config built serve_tools tools_only).runtime
        (serveRest config built serve_tools tools_only).serve_tools
        (serveRest config built serve_tools tools_only).tools_only ∧
    ((serveRest config built serve_tools tools_only).serve_tools = false →
      (serveRest config built serve_tools tools_only).runtime = none) := by
  refine ⟨?_, rfl, ?_⟩
  · unfold serveRest
    cases h : (resolveMode tools_only serve_tools config).1 <;> simp
  · intro hst
    unfold serveRest at hst ⊢
    simp only at hst
    simp [hst]

/-- C10: Output-key access — when the `full` parameter is not set to
true, the handler indexes the runner's output state at `output`: it
returns that value normally when the key is present, and raises (a
`KeyError`, modelled as `ServeError.keyError`) instead of returning a
response when the key is absent. -/
theorem agent_output_key_access {V : Type}
    (run : List (String × Option V) → List (String × V))
    (inputs data st : List (String × Option V)) (fullParam : Option String)
    (hfull : isRawRequest fullParam = false)
    (hok : getInputStateFromRequest inputs data = .ok st) :
    (∀ v, (run st).lookup "output" = some v →
      agentOnRequest run inputs data fullParam = .ok (.single v)) ∧
    ((run st).lookup "output" = none →
      agentOnRequest run inputs data fullParam = .error (.keyError "output")) := by
  constructor
  · intro v hv
    simp [agentOnRequest, hok, hfull, hv]
  · intro hv
    simp [agentOnRequest, hok, hfull, hv]

/-- Witness for C10 at a concrete input: a runner output without the
`output` key makes the handler raise. -/
theorem agent_output_key_access_witness :
    agentOnRequest (fun _ => ([("other", "w")] : List (String × String)))
      ([] : List (String × Option String)) [] none = .error (.keyError "output") := by
  have h := agent_output_key_access (fun _ => ([("other", "w")] : List (String × String)))
    [] [] [] none (by decide) (by decide)
  exact h.2 (by decide)

end Nerve
